import Mathlib

/-!
Verification of the VRCIM live log-tail event pipeline: a shallow embedding of
the log parser (`src/logParser.ts`), the SQLite persistence layer
(`src/database.ts`), the chunked tail reader (`VRChatMonitor`), the
rate-limited API request queue (`VRChatAPIClient`) and the VR notification
service (`VRNotificationService`), together with theorems about session
idempotence, transactional atomicity, enrichment policy, rate limiting,
pause/resume and frame conditions of `saveUser`.

Strings from the source are modelled as `List Char` (`Str`) so that all
definitions are executable and concrete runs evaluate by `decide`.
-/

set_option maxRecDepth 100000

namespace VRCIM

abbrev Str := List Char

/-- Does `cs` begin with the literal pattern `pat`? (used to embed regex
literal matching). -/
def beginsWith : Str → Str → Bool
  | [], _ => true
  | _ :: _, [] => false
  | p :: ps, c :: cs => p == c && beginsWith ps cs

/-- Remainder of `cs` after the first (leftmost) occurrence of `pat`;
`none` when `pat` does not occur.  Embeds a leading unanchored literal in a
JavaScript regex. -/
def afterFirst (pat : Str) : Str → Option Str
  | [] => if beginsWith pat [] then some [] else none
  | c :: cs =>
    if beginsWith pat (c :: cs) then some ((c :: cs).drop pat.length)
    else afterFirst pat cs

/-- Does `pat` occur anywhere in `cs`?  Embeds `.*pat` in a regex. -/
def containsSub (pat cs : Str) : Bool := (afterFirst pat cs).isSome

/-- Leftmost-occurrence matching with a continuation, with backtracking: the
first occurrence of `pat` whose remainder satisfies `k` wins.  Embeds an
unanchored regex `pat<rest>` where `<rest>` is decided by `k`. -/
def matchLazy (pat : Str) (k : Str → Option α) : Str → Option α
  | [] => if beginsWith pat [] then k [] else none
  | c :: cs =>
    match (if beginsWith pat (c :: cs) then k ((c :: cs).drop pat.length) else none) with
    | some r => some r
    | none => matchLazy pat k cs

/-- Rightmost-occurrence matching with a continuation, with backtracking:
the last occurrence of `pat` whose remainder satisfies `k` wins.  Embeds
`.*pat<rest>` with a greedy `.*`. -/
def matchGreedy (pat : Str) (k : Str → Option α) : Str → Option α
  | [] => if beginsWith pat [] then k [] else none
  | c :: cs =>
    match matchGreedy pat k cs with
    | some r => some r
    | none => if beginsWith pat (c :: cs) then k ((c :: cs).drop pat.length) else none

/-- JavaScript `String.prototype.trim` on our character lists. -/
def jsTrim (cs : Str) : Str :=
  ((cs.dropWhile Char.isWhitespace).reverse.dropWhile Char.isWhitespace).reverse

/-- The fixed-width timestamp prefix `^(\d{4}\.\d{2}\.\d{2} \d{2}:\d{2}:\d{2})`
of the VRChat log line regexes: returns the captured 19-character timestamp
and the rest of the line. -/
def matchTimestampPrefix (cs : Str) : Option (Str × Str) :=
  match cs with
  | a :: b :: c :: d :: e :: f :: g :: h :: i :: j :: k :: l :: m :: n :: o :: p :: q :: r :: s :: rest =>
    if a.isDigit && b.isDigit && c.isDigit && d.isDigit && e == '.' &&
       f.isDigit && g.isDigit && h == '.' && i.isDigit && j.isDigit &&
       k == ' ' && l.isDigit && m.isDigit && n == ':' && o.isDigit &&
       p.isDigit && q == ':' && r.isDigit && s.isDigit then
      some ([a, b, c, d, e, f, g, h, i, j, k, l, m, n, o, p, q, r, s], rest)
    else none
  | _ => none

/-- Regex `/^(ts).*\[Behaviour\] OnLeftRoom/` from `parseWorldLeave`:
returns the captured timestamp. -/
def matchWorldLeave (line : Str) : Option Str :=
  match matchTimestampPrefix line with
  | none => none
  | some (ts, rest) =>
    if containsSub "[Behaviour] OnLeftRoom".toList rest then some ts else none

/-- Regex `/\[Behaviour\] Entering Room: (.+)/` from `parseWorldJoinSequence`
(pattern 1), with the `.trim()` the caller applies to the capture. -/
def matchEnteringRoom (line : Str) : Option Str :=
  matchLazy "[Behaviour] Entering Room: ".toList
    (fun rest => if rest.isEmpty then none else some (jsTrim rest)) line

/-- Regex `/\[Behaviour\] Joining (wrld_[^\s]+)/` from `parseWorldJoinSequence`
(pattern 2); the capture keeps the `wrld_` prefix and the caller's `.trim()`
is the identity on it. -/
def matchJoiningWorld (line : Str) : Option Str :=
  matchLazy "[Behaviour] Joining wrld_".toList
    (fun rest =>
      let run := rest.takeWhile (fun c => ¬ c.isWhitespace)
      if run.isEmpty then none else some ("wrld_".toList ++ run)) line

/-- Regex `/^(ts).*\[Behaviour\] Successfully joined room/` from
`parseWorldJoinSequence` (pattern 3): returns the captured timestamp. -/
def matchSuccessJoin (line : Str) : Option Str :=
  match matchTimestampPrefix line with
  | none => none
  | some (ts, rest) =>
    if containsSub "[Behaviour] Successfully joined room".toList rest then some ts else none

/-- Character class `[a-f0-9\-]` of the VRChat user-id regexes. -/
def isUsrIdChar (c : Char) : Bool :=
  ('a' ≤ c && c ≤ 'f') || c.isDigit || c == '-'

/-- Suffix ` \((usr_[a-f0-9\-]+)\)` of the player regexes: if `cs` begins
with a parenthesised user id, return the captured id (with its `usr_`
prefix). -/
def checkUsrPart (cs : Str) : Option Str :=
  if beginsWith " (usr_".toList cs then
    let rest := cs.drop 6
    let run := rest.takeWhile isUsrIdChar
    if run.isEmpty then none
    else if beginsWith [')'] (rest.drop run.length) then some ("usr_".toList ++ run)
    else none
  else none

/-- Lazy capture `(.+?)` before ` \((usr_...)\)`: the shortest non-empty
player name followed by a parenthesised user id. -/
def parsePlayerRef (nameRev : Str) : Str → Option (Str × Str)
  | [] => none
  | c :: rest =>
    match checkUsrPart rest with
    | some uid => some ((c :: nameRev).reverse, uid)
    | none => parsePlayerRef (c :: nameRev) rest

/-- Regex `/^(ts).*\[Behaviour\] OnPlayerJoined (.+?) \((usr_[a-f0-9\-]+)\)/`
from `parsePlayerJoin`: captured timestamp, username and user id. -/
def matchPlayerJoined (line : Str) : Option (Str × Str × Str) :=
  match matchTimestampPrefix line with
  | none => none
  | some (ts, rest) =>
    matchGreedy "[Behaviour] OnPlayerJoined ".toList
      (fun after => (parsePlayerRef [] after).map (fun p => (ts, p.1, p.2))) rest

/-- Regex `/^(ts).*\[Behaviour\] OnPlayerLeft (.+?) \((usr_[a-f0-9\-]+)\)/`
from `parsePlayerLeave`: captured timestamp, username and user id. -/
def matchPlayerLeft (line : Str) : Option (Str × Str × Str) :=
  match matchTimestampPrefix line with
  | none => none
  | some (ts, rest) =>
    matchGreedy "[Behaviour] OnPlayerLeft ".toList
      (fun after => (parsePlayerRef [] after).map (fun p => (ts, p.1, p.2))) rest

/-- JavaScript `content.split('\n')` (always at least one, possibly empty,
piece; a trailing separator yields a trailing empty piece). -/
def splitOnNl : Str → List Str
  | [] => [[]]
  | c :: cs =>
    if c == '\n' then [] :: splitOnNl cs
    else
      match splitOnNl cs with
      | [] => [[c]]
      | l :: ls => (c :: l) :: ls

/-- JavaScript `lines.join('\n')`. -/
def joinNl : List Str → Str
  | [] => []
  | [l] => l
  | l :: ls => l ++ '\n' :: joinNl ls

/-- JavaScript truthiness of a nullable string (`null`, `undefined` and the
empty string are falsy). -/
def optTruthy : Option Str → Bool
  | none => false
  | some s => !s.isEmpty

/-- JavaScript `x || null` applied to a nullable string field (an empty
string collapses to `null`). -/
def jsOrNull : Option Str → Option Str
  | some s => if s.isEmpty then none else some s
  | o => o

/-- JavaScript `x || 'unknown'` applied to a nullable trust rank. -/
def jsOrUnknown : Option Str → Str
  | some s => if s.isEmpty then "unknown".toList else s
  | none => "unknown".toList

/-! ## Persistence store (`src/database.ts`)

Session UUIDs (`crypto.randomUUID`) are modelled as the values of a counter
threaded through the pipeline state: all that matters is that each minted
token is fresh.  Rows are appended to lists in insertion order.  Each SQLite
statement may throw; a failure oracle `DbOp → Bool` says which statement
kinds fail, and operations return the (possibly updated) database together
with an optional propagated error, mirroring better-sqlite3's
throw-on-error behaviour. -/

/-- A `world_activity` row. -/
structure WorldRow where
  sessionUuid : Nat
  eventType : Str
  worldName : Str
  timestamp : Str
  worldId : Str
deriving DecidableEq, Repr

/-- A `player_activity` row. -/
structure PlayerRow where
  sessionUuid : Nat
  eventType : Str
  timestamp : Str
  playerName : Str
  playerId : Str
deriving DecidableEq, Repr

/-- A `user_encounters` row. -/
structure EncounterRow where
  userId : Str
  sessionUuid : Nat
  timestamp : Str
  worldName : Str
  eventType : Str
deriving DecidableEq, Repr

/-- A `cached_users` row (tags are kept structured instead of JSON-encoded;
`JSON.stringify`/`JSON.parse` round-trip on them). -/
structure UserRow where
  id : Str
  username : Option Str
  displayName : Option Str
  tags : Option (List Str)
  trustRank : Str
  firstSeen : Str
  lastUpdated : Str
  timesEncountered : Nat
deriving DecidableEq, Repr

/-- The database state. -/
structure DB where
  worldActivity : List WorldRow
  playerActivity : List PlayerRow
  cachedUsers : List UserRow
  userEncounters : List EncounterRow
deriving DecidableEq, Repr

def DB.empty : DB := ⟨[], [], [], []⟩

/-- Statement kinds that the failure oracle can make throw. -/
inductive DbOp where
  | opSaveUser
  | opPlayerActivity
  | opEncounter
  | opWorldActivity
deriving DecidableEq, Repr

/-- The all-succeed oracle. -/
def noFail : DbOp → Bool := fun _ => false

/-- Argument record of `saveUser` (`Partial<VRChatUser> & {id, trustRank?}`);
`firstSeen` is part of what callers pass but `saveUser` never reads it. -/
structure UserInput where
  id : Str
  username : Option Str
  displayName : Option Str
  tags : Option (List Str)
  trustRank : Option Str
  firstSeen : Option Str
deriving DecidableEq, Repr

/-- `VRChatDatabase.saveUser`: `INSERT ... ON CONFLICT(id) DO UPDATE SET`
with `username, display_name, tags, trust_rank, last_updated` taken from the
excluded row and `times_encountered = times_encountered + 1`; on a fresh
insert `first_seen` and `last_updated` are both `new Date().toISOString()`
(the `now` parameter) and `times_encountered` starts at 1.  The update list
does not mention `first_seen` or `id`. -/
def saveUser (db : DB) (user : UserInput) (now : Str) : DB :=
  if db.cachedUsers.any (fun u => u.id == user.id) then
    { db with cachedUsers := db.cachedUsers.map (fun u =>
        if u.id == user.id then
          { u with
            username := jsOrNull user.username
            displayName := jsOrNull user.displayName
            tags := user.tags
            trustRank := jsOrUnknown user.trustRank
            lastUpdated := now
            timesEncountered := u.timesEncountered + 1 }
        else u) }
  else
    { db with cachedUsers := db.cachedUsers ++ [{
        id := user.id
        username := jsOrNull user.username
        displayName := jsOrNull user.displayName
        tags := user.tags
        trustRank := jsOrUnknown user.trustRank
        firstSeen := now
        lastUpdated := now
        timesEncountered := 1 }] }

/-- Raw row lookup by primary key. -/
def findUser (db : DB) (userId : Str) : Option UserRow :=
  db.cachedUsers.find? (fun u => u.id == userId)

/-- `VRChatDatabase.getUser`: the selected row with the reader-side
`trustRank || 'unknown'` defaulting (the date/count defaults never fire
because `saveUser` always writes those columns). -/
def getUser (db : DB) (userId : Str) : Option UserRow :=
  (findUser db userId).map (fun u =>
    { u with trustRank := if u.trustRank.isEmpty then "unknown".toList else u.trustRank })

/-- `VRChatDatabase.recordWorldActivity` under the failure oracle: appends a
`world_activity` row or throws. -/
def recordWorldActivity (fail : DbOp → Bool) (db : DB) (sessionUuid : Nat)
    (eventType worldName timestamp worldId : Str) : DB × Option Str :=
  if fail .opWorldActivity then (db, some "world_activity insert failed".toList)
  else ({ db with worldActivity :=
            db.worldActivity ++ [⟨sessionUuid, eventType, worldName, timestamp, worldId⟩] },
        none)

/-- `VRChatDatabase.recordPlayerActivity` under the failure oracle. -/
def recordPlayerActivity (fail : DbOp → Bool) (db : DB) (sessionUuid : Nat)
    (eventType timestamp playerName playerId : Str) : DB × Option Str :=
  if fail .opPlayerActivity then (db, some "player_activity insert failed".toList)
  else ({ db with playerActivity :=
            db.playerActivity ++ [⟨sessionUuid, eventType, timestamp, playerName, playerId⟩] },
        none)

/-- `VRChatDatabase.recordUserEncounter` under the failure oracle. -/
def recordUserEncounter (fail : DbOp → Bool) (db : DB) (userId : Str) (sessionUuid : Nat)
    (timestamp worldName eventType : Str) : DB × Option Str :=
  if fail .opEncounter then (db, some "user_encounters insert failed".toList)
  else ({ db with userEncounters :=
            db.userEncounters ++ [⟨userId, sessionUuid, timestamp, worldName, eventType⟩] },
        none)

/-- The placeholder user the transactions create when the participant has no
cached row yet (`trustRank: 'unknown'`, both names set to the log username). -/
def placeholderUser (userId username timestamp : Str) : UserInput :=
  ⟨userId, some username, some username, none, some "unknown".toList, some timestamp⟩

/-- Shared body of `recordPlayerJoinTransaction` / `recordPlayerLeaveTransaction`:
(1) ensure a cached placeholder exists, (2) insert the `player_activity` row,
(3) insert the `user_encounters` row, executed inside
`better-sqlite3`'s `db.transaction`, which rolls the database back to its
initial state and rethrows when any statement throws (the source `catch`
logs and rethrows).  A failure therefore returns the original `db` together
with the propagated error. -/
def recordPlayerEventTransaction (fail : DbOp → Bool) (db : DB)
    (userId username : Str) (sessionUuid : Nat)
    (timestamp worldName : Str) (activityType encounterType : Str) (now : Str) :
    DB × Option Str :=
  let step1 : DB × Option Str :=
    match getUser db userId with
    | some _ => (db, none)
    | none =>
      if fail .opSaveUser then (db, some "cached_users insert failed".toList)
      else (saveUser db (placeholderUser userId username timestamp) now, none)
  match step1 with
  | (_, some e) => (db, some e)
  | (db1, none) =>
    match recordPlayerActivity fail db1 sessionUuid activityType timestamp username userId with
    | (_, some e) => (db, some e)
    | (db2, none) =>
      match recordUserEncounter fail db2 userId sessionUuid timestamp worldName encounterType with
      | (_, some e) => (db, some e)
      | (db3, none) => (db3, none)

/-- `VRChatDatabase.recordPlayerJoinTransaction`. -/
def recordPlayerJoinTransaction (fail : DbOp → Bool) (db : DB)
    (userId username : Str) (sessionUuid : Nat) (timestamp worldName now : Str) :
    DB × Option Str :=
  recordPlayerEventTransaction fail db userId username sessionUuid timestamp worldName
    "Player Joined".toList "joined".toList now

/-- `VRChatDatabase.recordPlayerLeaveTransaction`. -/
def recordPlayerLeaveTransaction (fail : DbOp → Bool) (db : DB)
    (userId username : Str) (sessionUuid : Nat) (timestamp worldName now : Str) :
    DB × Option Str :=
  recordPlayerEventTransaction fail db userId username sessionUuid timestamp worldName
    "Player Left".toList "left".toList now

/-- `VRChatDatabase.getCurrentActiveSession`'s notion of an open session in
the durable record: the session ids of `'Joining World'` rows that have no
matching `'Leaving World'` row. -/
def openSessions (db : DB) : List Nat :=
  (db.worldActivity.filter (fun r =>
    r.eventType == "Joining World".toList &&
    !(db.worldActivity.any (fun q =>
        q.eventType == "Leaving World".toList && q.sessionUuid == r.sessionUuid)))).map
    (·.sessionUuid)

/-! ## VR notification service (`VRNotificationService`)

The OVR Toolkit WebSocket is modelled by its connectivity flag (the source
sets `ovrtConnected` true exactly while a live socket object exists), the
XSOverlay UDP socket is fire-and-forget.  Delivered payloads are collected
in a list. -/

/-- The two notification transports. -/
inductive Transport where
  | ovrToolkit
  | xsOverlay
deriving DecidableEq, Repr

/-- A delivered notification payload. -/
structure Send where
  transport : Transport
  title : Str
  body : Str
deriving DecidableEq, Repr

/-- `VRNotificationService` instance state. -/
structure NotifState where
  paused : Bool
  ovrtConnected : Bool
  xsoChecked : Bool
deriving DecidableEq, Repr

/-- `VRNotificationService.pause`: sets the flag only; transports untouched. -/
def pauseNotifications (s : NotifState) : NotifState := { s with paused := true }

/-- `VRNotificationService.resume`. -/
def resumeNotifications (s : NotifState) : NotifState := { s with paused := false }

/-- `sendOVRToolkitNotification`: delivers over the WebSocket when connected,
otherwise reports failure and delivers nothing. -/
def sendOVRToolkitNotification (s : NotifState) (title body : Str) : List Send :=
  if s.ovrtConnected then [⟨.ovrToolkit, title, body⟩] else []

/-- `sendXSOverlayNotification`: fire-and-forget UDP datagram. -/
def sendXSOverlayNotification (title body : Str) : List Send :=
  [⟨.xsOverlay, title, body⟩]

/-- `sendVisitorNotification`: short-circuits when paused; otherwise uses
OVR Toolkit when connected and falls back to XSOverlay (setting the
`xsoChecked` log flag) when not. -/
def sendVisitorNotification (s : NotifState) (visitorName : Str) : NotifState × List Send :=
  if s.paused then (s, [])
  else
    let title := "⚠️ Visitor Detected".toList
    let body := visitorName ++ " has joined the instance".toList
    if s.ovrtConnected then (s, sendOVRToolkitNotification s title body)
    else ({ s with xsoChecked := true }, sendXSOverlayNotification title body)

/-- Nuisance classification carried by an enriched user. -/
inductive NuisanceType where
  | troll
  | probableTroll
deriving DecidableEq, Repr

/-- `sendNuisanceNotification`: same pause/fallback structure with the
higher-priority alert text. -/
def sendNuisanceNotification (s : NotifState) (playerName : Str)
    (nuisanceType : NuisanceType) : NotifState × List Send :=
  if s.paused then (s, [])
  else
    let title := "🚨 Nuisance Player Alert".toList
    let typeText := if nuisanceType = .troll then "nuisance tag".toList
                    else "probable nuisance tag".toList
    let body := playerName ++ " has joined and has a ".toList ++ typeText ++
                " applied by VRChat — be alert".toList
    if s.ovrtConnected then (s, sendOVRToolkitNotification s title body)
    else ({ s with xsoChecked := true }, sendXSOverlayNotification title body)

/-! ## API client (`VRChatAPIClient`), trust ranks and enrichment policy -/

/-- `VRChatAPIClient.getUserTrustRank`: derives the coarse trust tier from
the upstream tag set. -/
def getUserTrustRank (tags : List Str) : Str :=
  if tags.contains "system_trust_legend".toList || tags.contains "system_trust_veteran".toList then
    "Trusted User".toList
  else if tags.contains "system_trust_trusted".toList then "Known User".toList
  else if tags.contains "system_trust_known".toList then "User".toList
  else if tags.contains "system_trust_basic".toList then "New User".toList
  else "Visitor".toList

/-- The fields of a `VRChatUser` API response that the enrichment path
stores or branches on. -/
structure UserInfo where
  username : Str
  displayName : Str
  tags : List Str
  isNuisance : Bool
  nuisanceType : Option NuisanceType
deriving DecidableEq, Repr

/-- ASCII `String.prototype.toLowerCase` as used on trust ranks. -/
def strToLower (s : Str) : Str := s.map Char.toLower

/-- The cached-identity test of `fetchAndCacheUser`:
`cachedUser && cachedUser.trustRank && cachedUser.trustRank.toLowerCase() === 'visitor'`. -/
def isVisitorCached (cached : Option UserRow) : Bool :=
  match cached with
  | none => false
  | some u => !u.trustRank.isEmpty && strToLower u.trustRank == "visitor".toList

/-- The synchronous head of `VRChatLogParser.fetchAndCacheUser`: decides
whether an enrichment lookup is queued for this sighting.  Returns `false`
when no API client is configured, when the client is not authenticated, and
when the cached identity already has a trust rank other than `'unknown'`
that is not (case-insensitively) `'Visitor'`; in all remaining cases
`getUserInfo` is called, which enqueues the request. -/
def fetchQueuesLookup (hasApiClient isAuthenticated : Bool) (db : DB) (userId : Str) : Bool :=
  if !hasApiClient then false
  else if !isAuthenticated then false
  else
    let cachedUser := getUser db userId
    let isVisitor := isVisitorCached cachedUser
    match cachedUser with
    | some u => if u.trustRank != "unknown".toList && !isVisitor then false else true
    | none => true

/-- The continuation of `fetchAndCacheUser` around the awaited API response
(`response = none` models a not-found or failed lookup; the `catch` then
drops the task).  On success the enriched identity is written back with
`saveUser`, a nuisance or visitor notification may fire (nuisance takes
priority), and the delivered payloads are returned. -/
def fetchAndCacheUser (hasApiClient isAuthenticated : Bool) (response : Option UserInfo)
    (db : DB) (vn : NotifState) (userId username timestamp now : Str) :
    DB × NotifState × List Send :=
  if !hasApiClient then (db, vn, [])
  else if !isAuthenticated then (db, vn, [])
  else
    let cachedUser := getUser db userId
    let isVisitor := isVisitorCached cachedUser
    let skip := match cachedUser with
      | some u => u.trustRank != "unknown".toList && !isVisitor
      | none => false
    if skip then (db, vn, [])
    else
      match response with
      | none => (db, vn, [])
      | some userInfo =>
        let trustRank := getUserTrustRank userInfo.tags
        let savedFirstSeen := match cachedUser with
          | some u => if u.firstSeen.isEmpty then timestamp else u.firstSeen
          | none => timestamp
        let userToSave : UserInput :=
          ⟨userId, some userInfo.username, some userInfo.displayName,
           some userInfo.tags, some trustRank, some savedFirstSeen⟩
        let db' := saveUser db userToSave now
        let name := if userInfo.displayName.isEmpty then username else userInfo.displayName
        let (vn', sends) :=
          match userInfo.isNuisance, userInfo.nuisanceType with
          | true, some nt => sendNuisanceNotification vn name nt
          | _, _ =>
            if !trustRank.isEmpty && strToLower trustRank == "visitor".toList then
              sendVisitorNotification vn name
            else (vn, [])
        (db', vn', sends)

/-! ## Event extractor / state machine (`VRChatLogParser`) -/

/-- Observable side effects of the parser: web-socket broadcasts and
enrichment enqueues, in emission order. -/
inductive Eff where
  | broadcastWorldLog (sessionUuid : Nat) (eventType worldName timestamp worldId createdAt : Str)
  | broadcastPlayerLog (sessionUuid : Nat) (eventType timestamp playerName playerId createdAt : Str)
  | broadcastStats
  | broadcastPlayerCount (n : Nat)
  | broadcastSession (sessionUuid : Nat)
  | enrichQueued (userId : Str)
deriving DecidableEq, Repr

/-- The `ParseContext` of `logParser.ts`. -/
structure ParseContext where
  currentWorldName : Option Str
  currentWorldId : Option Str
  currentSessionUUID : Option Nat
  currentPlayersInWorld : List Str
deriving DecidableEq, Repr

/-- Full parser-side state: context, database, the UUID supply and the
emitted effect trace. -/
structure PState where
  ctx : ParseContext
  db : DB
  nextUuid : Nat
  trace : List Eff
deriving DecidableEq, Repr

def PState.initial : PState := ⟨⟨none, none, none, []⟩, DB.empty, 0, []⟩

/-- JavaScript `Set.prototype.add` on the participant set (insertion order,
no duplicates). -/
def setAdd (s : List Str) (x : Str) : List Str :=
  if s.contains x then s else s ++ [x]

/-- JavaScript `Set.prototype.delete`. -/
def setDel (s : List Str) (x : Str) : List Str := s.filter (fun y => y != x)

/-- `context.currentWorldName || 'Unknown'` as passed to the join/leave
transactions. -/
def worldNameOrUnknown : Option Str → Str
  | some w => if w.isEmpty then "Unknown".toList else w
  | none => "Unknown".toList

/-- `VRChatLogParser.parseWorldLeave`: on an `OnLeftRoom` line while a world
is set, record and broadcast the leave (errors are caught and processing
continues), then clear the world state, the participant set and broadcast
a zero participant count. -/
def parseWorldLeave (fail : DbOp → Bool) (now line : Str) (s : PState) : PState :=
  match matchWorldLeave line with
  | none => s
  | some ts =>
    if optTruthy s.ctx.currentWorldName && optTruthy s.ctx.currentWorldId then
      let s1 :=
        match s.ctx.currentSessionUUID with
        | some sid =>
          let wname := s.ctx.currentWorldName.getD []
          let wid := s.ctx.currentWorldId.getD []
          match recordWorldActivity fail s.db sid "Leaving World".toList wname ts wid with
          | (db', some _) => { s with db := db' }
          | (db', none) =>
            { s with db := db'
                     trace := s.trace ++
                       [Eff.broadcastWorldLog sid "Leaving World".toList wname ts wid now,
                        Eff.broadcastStats] }
        | none => s
      { s1 with ctx := ⟨none, none, none, []⟩
                trace := s1.trace ++ [Eff.broadcastPlayerCount 0] }
    else s

/-- The accumulator of the room-join sequence, local to one
`parseLogContent` call. -/
structure JoinAcc where
  worldName : Option Str
  worldId : Option Str
  worldJoinTimestamp : Option Str
deriving DecidableEq, Repr

def JoinAcc.empty : JoinAcc := ⟨none, none, none⟩

/-- `VRChatLogParser.parseWorldJoinSequence`: accumulates the three markers
(room name, room id, join confirmation) of the join sequence. -/
def parseWorldJoinSequence (line : Str) (acc : JoinAcc) : JoinAcc :=
  let acc := match matchEnteringRoom line with
    | some n => { acc with worldName := some n }
    | none => acc
  let acc := match matchJoiningWorld line with
    | some i => { acc with worldId := some i }
    | none => acc
  match matchSuccessJoin line with
  | some t => { acc with worldJoinTimestamp := some t }
  | none => acc

/-- `VRChatLogParser.handleWorldJoin`: when the confirmed room differs from
the active one (or none is active), mint a fresh session UUID, reset the
participant set, record the `'Joining World'` row and broadcast; identical
confirmed room is a no-op. -/
def handleWorldJoin (fail : DbOp → Bool) (now worldName worldId timestamp : Str)
    (s : PState) : PState :=
  let isDifferentInstance :=
    s.ctx.currentWorldName != some worldName || s.ctx.currentWorldId != some worldId
  let wasNotInWorld := !(optTruthy s.ctx.currentWorldName)
  if isDifferentInstance || wasNotInWorld then
    let sid := s.nextUuid
    let s1 := { s with nextUuid := s.nextUuid + 1
                       ctx := ⟨some worldName, some worldId, some sid, []⟩ }
    match recordWorldActivity fail s1.db sid "Joining World".toList worldName timestamp worldId with
    | (db', some _) => { s1 with db := db' }
    | (db', none) =>
      { s1 with db := db'
                trace := s1.trace ++
                  [Eff.broadcastSession sid,
                   Eff.broadcastWorldLog sid "Joining World".toList worldName timestamp worldId now,
                   Eff.broadcastPlayerCount 0] }
  else s

/-- `VRChatLogParser.parsePlayerJoin`: on an `OnPlayerJoined` line the
participant is added to the in-memory set unconditionally; only with an
active session are the join transaction, the conditional enrichment enqueue
and the broadcasts performed (a transaction error is caught and suppresses
them). -/
def parsePlayerJoin (fail : DbOp → Bool) (now : Str)
    (shouldFetchUsers hasApiClient isAuthenticated : Bool) (line : Str) (s : PState) : PState :=
  match matchPlayerJoined line with
  | none => s
  | some (ts, username, userId) =>
    let players := setAdd s.ctx.currentPlayersInWorld userId
    let s1 := { s with ctx := { s.ctx with currentPlayersInWorld := players } }
    match s1.ctx.currentSessionUUID with
    | none => s1
    | some sid =>
      match recordPlayerJoinTransaction fail s1.db userId username sid ts
              (worldNameOrUnknown s1.ctx.currentWorldName) now with
      | (db', some _) => { s1 with db := db' }
      | (db', none) =>
        let s2 := { s1 with db := db' }
        let s3 :=
          if shouldFetchUsers && fetchQueuesLookup hasApiClient isAuthenticated s2.db userId then
            { s2 with trace := s2.trace ++ [Eff.enrichQueued userId] }
          else s2
        { s3 with trace := s3.trace ++
            [Eff.broadcastPlayerLog sid "Player Joined".toList ts username userId now,
             Eff.broadcastPlayerCount players.length] }

/-- `VRChatLogParser.parsePlayerLeave`: mirror image of `parsePlayerJoin`
without the enrichment enqueue. -/
def parsePlayerLeave (fail : DbOp → Bool) (now line : Str) (s : PState) : PState :=
  match matchPlayerLeft line with
  | none => s
  | some (ts, username, userId) =>
    let players := setDel s.ctx.currentPlayersInWorld userId
    let s1 := { s with ctx := { s.ctx with currentPlayersInWorld := players } }
    match s1.ctx.currentSessionUUID with
    | none => s1
    | some sid =>
      match recordPlayerLeaveTransaction fail s1.db userId username sid ts
              (worldNameOrUnknown s1.ctx.currentWorldName) now with
      | (db', some _) => { s1 with db := db' }
      | (db', none) =>
        { s1 with db := db'
                  trace := s1.trace ++
                    [Eff.broadcastPlayerLog sid "Player Left".toList ts username userId now,
                     Eff.broadcastPlayerCount players.length] }

/-- One iteration of the line loop in `parseLogContent`: world leave, join
sequence accumulation, the truthiness-guarded completion check, then player
events. -/
def parseLogLine (fail : DbOp → Bool) (now : Str)
    (shouldFetchUsers hasApiClient isAuthenticated : Bool)
    (st : JoinAcc × PState) (line : Str) : JoinAcc × PState :=
  let s := parseWorldLeave fail now line st.2
  let acc := parseWorldJoinSequence line st.1
  let (acc, s) :=
    if optTruthy acc.worldJoinTimestamp && optTruthy acc.worldName && optTruthy acc.worldId then
      (JoinAcc.empty,
       handleWorldJoin fail now (acc.worldName.getD []) (acc.worldId.getD [])
         (acc.worldJoinTimestamp.getD []) s)
    else (acc, s)
  let s := parsePlayerJoin fail now shouldFetchUsers hasApiClient isAuthenticated line s
  (acc, parsePlayerLeave fail now line s)

/-- `VRChatLogParser.parseLogContent`: split on newlines and process lines
sequentially; the join-sequence accumulator starts empty on every call and
is discarded at the end. -/
def parseLogContent (fail : DbOp → Bool) (now : Str)
    (shouldFetchUsers hasApiClient isAuthenticated : Bool)
    (content : Str) (s : PState) : PState :=
  ((splitOnNl content).foldl
    (parseLogLine fail now shouldFetchUsers hasApiClient isAuthenticated)
    (JoinAcc.empty, s)).2

/-! ## Tail reader chunk loop (`VRChatMonitor.readLogFileFromPositionCore`) -/

/-- The stream `data`/`end` handlers of `readLogFileFromPositionCore`: each
chunk is appended to the carry-over buffer, complete lines are cut off and
handed to `parseLogContent` (rejoined with a trailing newline), the last
partial line stays buffered; at end-of-stream a non-empty remainder is
parsed as well. -/
def readLogChunks (fail : DbOp → Bool) (now : Str)
    (shouldFetchUsers hasApiClient isAuthenticated : Bool)
    (chunks : List Str) (s : PState) : PState :=
  let r := chunks.foldl
    (fun (acc : Str × PState) chunk =>
      let lineBuffer := acc.1 ++ chunk
      let parts := splitOnNl lineBuffer
      let buffer' := parts.getLast?.getD []
      let complete := parts.dropLast
      let s' :=
        if complete.isEmpty then acc.2
        else parseLogContent fail now shouldFetchUsers hasApiClient isAuthenticated
               (joinNl complete ++ ['\n']) acc.2
      (buffer', s'))
    ([], s)
  if r.1.isEmpty then r.2
  else parseLogContent fail now shouldFetchUsers hasApiClient isAuthenticated r.1 r.2

/-- A full participant-join sighting as `parsePlayerJoin` performs it on the
durable side, composed with the later completion of the enrichment task it
may enqueue: the join transaction, then — when an enrichment was queued for
this sighting — the response handling of `fetchAndCacheUser`. -/
def processJoinSighting (fail : DbOp → Bool) (hasApiClient isAuthenticated : Bool)
    (response : Option UserInfo) (db : DB) (vn : NotifState)
    (userId username : Str) (sessionUuid : Nat) (timestamp worldName now : Str) :
    DB × NotifState :=
  match recordPlayerJoinTransaction fail db userId username sessionUuid timestamp worldName now with
  | (db', some _) => (db', vn)
  | (db', none) =>
    let r := fetchAndCacheUser hasApiClient isAuthenticated response db' vn
               userId username timestamp now
    (r.1, r.2.1)

/-- `times_encountered` of a participant, 0 when uncached (for stating
counting properties). -/
def timesEncounteredOf (db : DB) (userId : Str) : Nat :=
  ((findUser db userId).map (·.timesEncountered)).getD 0

/-! ## Enrichment queue rate limiting (`VRChatAPIClient.processQueue`)

`processQueue` serves the queue in FIFO order on a single consumer loop
guarded by the `processing` flag: a request is awaited to completion, then,
only if the queue is still non-empty, the loop sleeps `RATE_LIMIT_DELAY`
before starting the next request.  When the queue drains the loop exits, and
the next `queueRequest` immediately restarts it.  With arrival times and
durations given, the resulting start/completion times are the following
deterministic schedule: a request that was already queued when its
predecessor completed starts exactly `delay` after that completion; a
request that arrives after the queue drained starts at its arrival time. -/

/-- An enrichment request: when it is enqueued and how long the awaited
call takes. -/
structure Req where
  arrival : Nat
  duration : Nat
deriving DecidableEq, Repr

/-- `RATE_LIMIT_DELAY = 1000` (milliseconds between requests). -/
def RATE_LIMIT_DELAY : Nat := 1000

/-- Schedule of the requests after the first, given the completion time of
the predecessor: each request paired with its (start, completion) times.  A
request already queued at the predecessor's completion starts after the
sleep (`prevComp + delay`); one arriving after the drain starts on arrival. -/
def scheduleAux (delay : Nat) (prevComp : Nat) : List Req → List (Req × Nat × Nat)
  | [] => []
  | r :: rs =>
    let s := if r.arrival ≤ prevComp then prevComp + delay else r.arrival
    (r, s, s + r.duration) :: scheduleAux delay (s + r.duration) rs

/-- The full schedule `processQueue` produces: the first request starts at
its arrival (its `queueRequest` starts the idle loop immediately). -/
def processQueueSchedule (delay : Nat) : List Req → List (Req × Nat × Nat)
  | [] => []
  | r :: rs =>
    (r, r.arrival, r.arrival + r.duration) :: scheduleAux delay (r.arrival + r.duration) rs

/-! ## Concrete log fixtures (lines in the format the regexes match) -/

def lineEnterAlpha : Str :=
  "2023.01.01 10:00:00 Log        -  [Behaviour] Entering Room: Alpha".toList

def lineJoiningAbc : Str :=
  "2023.01.01 10:00:01 Log        -  [Behaviour] Joining wrld_abc123".toList

def lineSuccessA : Str :=
  "2023.01.01 10:00:05 Log        -  [Behaviour] Successfully joined room".toList

def lineEnterBeta : Str :=
  "2023.01.01 11:00:00 Log        -  [Behaviour] Entering Room: Beta".toList

def lineJoiningDef : Str :=
  "2023.01.01 11:00:01 Log        -  [Behaviour] Joining wrld_def456".toList

def lineSuccessB : Str :=
  "2023.01.01 11:00:05 Log        -  [Behaviour] Successfully joined room".toList

def linePlayerJoinNova : Str :=
  "2023.01.01 10:01:00 Log        -  [Behaviour] OnPlayerJoined Nova (usr_ab12-cd34)".toList

/-- The complete three-marker room-join sequence for room Alpha. -/
def seqAlpha : Str := lineEnterAlpha ++ '\n' :: lineJoiningAbc ++ '\n' :: lineSuccessA

/-- The complete three-marker room-join sequence for room Beta. -/
def seqBeta : Str := lineEnterBeta ++ '\n' :: lineJoiningDef ++ '\n' :: lineSuccessB

/-- First chunk of a split of `seqAlpha`: the room-name and room-id lines,
newline-terminated. -/
def chunkHead : Str := lineEnterAlpha ++ '\n' :: lineJoiningAbc ++ ['\n']

/-- Second chunk of the split: the join-confirmation line. -/
def chunkTail : Str := lineSuccessA

/-- Back-to-back join sequences for two different rooms, with no
intervening room leave. -/
def seqAlphaBeta : Str := seqAlpha ++ '\n' :: seqBeta

/-- A cached identity that already carries a full (non-placeholder,
non-Visitor) trust tier. -/
def rowNovaTrusted : UserRow :=
  ⟨"usr_ab12-cd34".toList, some "Nova".toList, some "Nova".toList, none,
   "Known User".toList, "2022.12.01 09:00:00".toList, "2022.12.01 09:00:00".toList, 3⟩

def dbNovaTrusted : DB := { DB.empty with cachedUsers := [rowNovaTrusted] }

/-- An enriched API response for Nova carrying a basic-trust tag. -/
def infoNova : UserInfo :=
  ⟨"nova".toList, "Nova".toList, ["system_trust_basic".toList], false, none⟩

def notifInit : NotifState := ⟨false, true, false⟩

/-- A failure oracle that makes exactly the `user_encounters` insert (the
third write of the join/leave transactions) throw. -/
def failEncounterOnly : DbOp → Bool := fun op => op == DbOp.opEncounter

/-- A cached identity still in the `unknown` placeholder state. -/
def rowNovaPlaceholder : UserRow :=
  ⟨"usr_ab12-cd34".toList, some "Nova".toList, some "Nova".toList, none,
   "unknown".toList, "2022.12.01 09:00:00".toList, "2022.12.01 09:00:00".toList, 1⟩

def dbNovaPlaceholder : DB := { DB.empty with cachedUsers := [rowNovaPlaceholder] }

/-- The enrichment-skip policy as §4.4 of the specification words it: a
cached identity exists whose trust tier is neither the placeholder
`unknown` nor (case-insensitively) the lowest tier `Visitor`. -/
def specSkipsEnrichment (db : DB) (userId : Str) : Prop :=
  ∃ u, getUser db userId = some u ∧ u.trustRank ≠ "unknown".toList ∧
    strToLower u.trustRank ≠ "visitor".toList


/-! ## Theorems -/

/-- C8: while the pause flag is set, neither notification send operation
delivers on either transport and the transport connections are untouched by
pausing; after `resume`, the next qualifying call delivers exactly one
payload on the transport chosen by current connectivity (OVR Toolkit when
connected, XSOverlay otherwise). -/
theorem c8_pause_blocks_delivery_resume_restores :
    ∀ (s : NotifState) (visitorName playerName : Str) (nt : NuisanceType),
      (sendVisitorNotification (pauseNotifications s) visitorName).2 = [] ∧
      (sendVisitorNotification (pauseNotifications s) visitorName).1 = pauseNotifications s ∧
      (sendNuisanceNotification (pauseNotifications s) playerName nt).2 = [] ∧
      (sendNuisanceNotification (pauseNotifications s) playerName nt).1 = pauseNotifications s ∧
      (pauseNotifications s).ovrtConnected = s.ovrtConnected ∧
      (pauseNotifications s).xsoChecked = s.xsoChecked ∧
      ((sendVisitorNotification (resumeNotifications (pauseNotifications s)) visitorName).2.map
          (·.transport) =
        [if s.ovrtConnected then Transport.ovrToolkit else Transport.xsOverlay]) ∧
      ((sendNuisanceNotification (resumeNotifications (pauseNotifications s)) playerName nt).2.map
          (·.transport) =
        [if s.ovrtConnected then Transport.ovrToolkit else Transport.xsOverlay]) := by
  intro s visitorName playerName nt
  refine ⟨?_, ?_, ?_, ?_, rfl, rfl, ?_, ?_⟩ <;>
    simp [sendVisitorNotification, sendNuisanceNotification, pauseNotifications,
      resumeNotifications, sendOVRToolkitNotification, sendXSOverlayNotification] <;>
    by_cases h : s.ovrtConnected <;> simp [h]

/-- C5 counterexample: a sighting of a participant with no cached identity
while the API client is configured but not authenticated queues no
enrichment lookup, contradicting the claim that in every case other than a
cached trusted tier a lookup is enqueued. -/
theorem c5_counterexample_unauthenticated_no_enqueue :
    getUser DB.empty "usr_ab12-cd34".toList = none ∧
    fetchQueuesLookup true false DB.empty "usr_ab12-cd34".toList = false := by
  constructor
  · rfl
  · rfl

/-- A `getUser` result never carries an empty trust rank (the reader
defaults it to `unknown`). -/
theorem getUser_trustRank_nonempty {db : DB} {userId : Str} {u : UserRow}
    (h : getUser db userId = some u) : u.trustRank.isEmpty = false := by
  unfold getUser at h
  cases hfu : findUser db userId with
  | none => rw [hfu] at h; cases h
  | some v =>
    rw [hfu] at h
    simp only [Option.map_some', Option.some.injEq] at h
    subst h
    cases hv : v.trustRank.isEmpty
    · simpa using hv
    · rfl

/-- C5 amended: provided an API client is configured and authenticated, a
sighting skips enrichment (queues no lookup) exactly when the cached
identity has a trust tier that is neither the placeholder `unknown` nor,
case-insensitively, the lowest tier `Visitor`; with no API client, or with
an unauthenticated client, no lookup is ever queued, even for an uncached
participant. -/
theorem c5_enrichment_skip_policy :
    ∀ (db : DB) (userId : Str),
      (fetchQueuesLookup true true db userId = false ↔ specSkipsEnrichment db userId) ∧
      (∀ isAuth : Bool, fetchQueuesLookup false isAuth db userId = false) ∧
      (∀ hasClient : Bool, fetchQueuesLookup hasClient false db userId = false) := by
  intro db userId
  refine ⟨?_, fun _ => rfl, fun hasClient => by cases hasClient <;> rfl⟩
  unfold fetchQueuesLookup specSkipsEnrichment
  cases hgu : getUser db userId with
  | none => simp [hgu]
  | some u =>
    have hne := getUser_trustRank_nonempty hgu
    simp only [hgu, Bool.not_true, Bool.false_eq_true, if_false, isVisitorCached, hne,
      Bool.not_false, Bool.true_and, Option.some.injEq]
    constructor
    · intro h
      by_cases h1 : u.trustRank = "unknown".toList
      · simp [h1] at h
      · by_cases h2 : strToLower u.trustRank = "visitor".toList
        · simp [h2, bne_iff_ne, h1] at h
        · exact ⟨u, rfl, h1, h2⟩
    · rintro ⟨v, hv, hv1, hv2⟩
      cases hv
      simp only [bne_iff_ne, ne_eq, Bool.and_eq_true, Bool.not_eq_true', beq_eq_false_iff_ne,
        decide_eq_true_eq]
      rw [if_pos ⟨hv1, hv2⟩]

/-- C2: a room-join confirmation for the room that is already active is a
complete no-op of `handleWorldJoin` — no new session UUID is minted, no
second `'Joining World'` row is recorded, nothing is broadcast, and the
context (including the participant set) is unchanged; consequently feeding
the complete Alpha room-join sequence twice through `parseLogContent` ends
in exactly the state of feeding it once. -/
theorem c2_duplicate_join_confirmation_idempotent :
    (∀ (fail : DbOp → Bool) (now w wid ts : Str) (s : PState),
        s.ctx.currentWorldName = some w → w ≠ [] →
        s.ctx.currentWorldId = some wid →
        handleWorldJoin fail now w wid ts s = s) ∧
    parseLogContent noFail "T".toList true true true (seqAlpha ++ '\n' :: seqAlpha)
        PState.initial =
      parseLogContent noFail "T".toList true true true seqAlpha PState.initial := by
  constructor
  · intro fail now w wid ts s hname hw hid
    unfold handleWorldJoin
    rw [hname, hid]
    have hw' : w.isEmpty = false := by
      cases w with
      | nil => exact absurd rfl hw
      | cons a as => rfl
    simp [optTruthy, hw']
  · decide

/-- C2 witness: the no-op branch at a concrete in-world state. -/
theorem c2_witness :
    handleWorldJoin noFail "T".toList "Alpha".toList "wrld_abc123".toList
        "2023.01.01 10:00:09".toList
        ⟨⟨some "Alpha".toList, some "wrld_abc123".toList, some 0, []⟩, DB.empty, 1, []⟩ =
      ⟨⟨some "Alpha".toList, some "wrld_abc123".toList, some 0, []⟩, DB.empty, 1, []⟩ :=
  c2_duplicate_join_confirmation_idempotent.1 noFail "T".toList "Alpha".toList
    "wrld_abc123".toList "2023.01.01 10:00:09".toList
    ⟨⟨some "Alpha".toList, some "wrld_abc123".toList, some 0, []⟩, DB.empty, 1, []⟩
    rfl (by decide) rfl

/-- C1: the chunk-reassembly loop is not equivalent to parsing the whole
text in one `parseLogContent` call.  The two chunks reassemble exactly the
Alpha room-join sequence, and every line reaches the parser intact, yet the
chunked run records no `'Joining World'` row while the single-call run
records one: `parseLogContent` keeps the partially accumulated room-join
markers in call-local variables, so a chunk boundary between the room-name
line and the confirmation line silently drops the world join. -/
theorem c1_chunk_split_loses_join_sequence :
    chunkHead ++ chunkTail = seqAlpha ∧
    (readLogChunks noFail "T".toList true true true [chunkHead, chunkTail]
        PState.initial).db.worldActivity = [] ∧
    (parseLogContent noFail "T".toList true true true seqAlpha
        PState.initial).db.worldActivity =
      [⟨0, "Joining World".toList, "Alpha".toList, "2023.01.01 10:00:05".toList,
        "wrld_abc123".toList⟩] := by
  refine ⟨by decide, by decide, by decide⟩

/-- C9 counterexample: processing two complete room-join sequences for
different rooms with no intervening leave puts two `'Joining World'` rows
with no matching `'Leaving World'` row into the durable record — two
sessions are simultaneously open there, violating the at-most-one
invariant for the durable state. -/
theorem c9_counterexample_two_open_sessions :
    openSessions (parseLogContent noFail "T".toList true true true seqAlphaBeta
        PState.initial).db = [0, 1] ∧
    1 < (openSessions (parseLogContent noFail "T".toList true true true seqAlphaBeta
        PState.initial).db).length := by
  refine ⟨by decide, by decide⟩

/-- C6 counterexample: a participant-join line processed with no active
session writes no row and broadcasts nothing, but the in-memory participant
set does change (from empty to the joined participant), contradicting the
claim that the in-memory state including the participant set is unchanged. -/
theorem c6_counterexample_participant_set_mutated :
    PState.initial.ctx.currentSessionUUID = none ∧
    (parsePlayerJoin noFail "T".toList true true true linePlayerJoinNova
        PState.initial).db = PState.initial.db ∧
    (parsePlayerJoin noFail "T".toList true true true linePlayerJoinNova
        PState.initial).trace = PState.initial.trace ∧
    PState.initial.ctx.currentPlayersInWorld = [] ∧
    (parsePlayerJoin noFail "T".toList true true true linePlayerJoinNova
        PState.initial).ctx.currentPlayersInWorld = ["usr_ab12-cd34".toList] := by
  refine ⟨rfl, by decide, by decide, rfl, by decide⟩

/-- C6 amended: with no active session, a participant-join or
participant-leave line leaves the database, the effect trace (broadcasts
and enrichment enqueues), the UUID supply and the world/session cursor
untouched — the only change is that the in-memory participant set is still
updated (the join adds the participant, the leave removes it). -/
theorem c6_no_session_events_ignored_durably :
    ∀ (fail : DbOp → Bool) (now : Str) (sf hc auth : Bool) (line : Str) (s : PState),
      s.ctx.currentSessionUUID = none →
      parsePlayerJoin fail now sf hc auth line s =
        { s with ctx := { s.ctx with currentPlayersInWorld :=
            (match matchPlayerJoined line with
             | some r => setAdd s.ctx.currentPlayersInWorld r.2.2
             | none => s.ctx.currentPlayersInWorld) } } ∧
      parsePlayerLeave fail now line s =
        { s with ctx := { s.ctx with currentPlayersInWorld :=
            (match matchPlayerLeft line with
             | some r => setDel s.ctx.currentPlayersInWorld r.2.2
             | none => s.ctx.currentPlayersInWorld) } } := by
  intro fail now sf hc auth line s hsid
  constructor
  · unfold parsePlayerJoin
    cases hm : matchPlayerJoined line with
    | none => rfl
    | some r => obtain ⟨ts, username, userId⟩ := r; simp [hsid]
  · unfold parsePlayerLeave
    cases hm : matchPlayerLeft line with
    | none => rfl
    | some r => obtain ⟨ts, username, userId⟩ := r; simp [hsid]

/-- C6 witness: the amended statement at a concrete no-session state and
player-join line. -/
theorem c6_witness :
    parsePlayerJoin noFail "T".toList true true true linePlayerJoinNova PState.initial =
      { PState.initial with ctx := { PState.initial.ctx with currentPlayersInWorld :=
          (match matchPlayerJoined linePlayerJoinNova with
           | some r => setAdd PState.initial.ctx.currentPlayersInWorld r.2.2
           | none => PState.initial.ctx.currentPlayersInWorld) } } :=
  (c6_no_session_events_ignored_durably noFail "T".toList true true true
    linePlayerJoinNova PState.initial rfl).1

/-- Primary-key lookup commutes with an id-preserving row update. -/
theorem find?_map_id_preserved (l : List UserRow) (uid : Str) (g : UserRow → UserRow)
    (hg : ∀ x, (g x).id = x.id) (r : UserRow)
    (h : l.find? (fun x => x.id == uid) = some r) :
    (l.map g).find? (fun x => x.id == uid) = some (g r) := by
  induction l with
  | nil => cases h
  | cons x xs ih =>
    rw [List.map_cons]
    cases hx : x.id == uid
    · simp only [List.find?_cons, hg x, hx] at h ⊢
      exact ih h
    · simp only [List.find?_cons, hg x, hx] at h ⊢
      injection h with h
      subst h
      rfl

/-- C10: when a cached row for the id already exists, `saveUser` updates
`username`, `displayName`, `tags`, `trustRank` and `lastUpdated` from the
caller, increments `timesEncountered` by exactly one, and leaves the stored
`firstSeen` and the primary key `id` exactly as first written, regardless of
the `firstSeen` value supplied by the caller. -/
theorem c10_saveUser_preserves_firstSeen_and_id :
    ∀ (db : DB) (u : UserInput) (now : Str) (r : UserRow),
      findUser db u.id = some r →
      findUser (saveUser db u now) u.id = some
        { r with username := jsOrNull u.username
                 displayName := jsOrNull u.displayName
                 tags := u.tags
                 trustRank := jsOrUnknown u.trustRank
                 lastUpdated := now
                 timesEncountered := r.timesEncountered + 1 } := by
  intro db u now r h
  unfold findUser at h
  have hp : (r.id == u.id) = true := by
    have hp0 := List.find?_some h
    exact hp0
  have hany : db.cachedUsers.any (fun x => x.id == u.id) = true :=
    List.any_eq_true.mpr ⟨r, List.mem_of_find?_eq_some h, hp⟩
  unfold findUser saveUser
  rw [if_pos hany]
  dsimp only
  rw [find?_map_id_preserved db.cachedUsers u.id _
        (by intro x; split <;> rfl) r h]
  rw [if_pos hp]

/-- C10 witness: updating the cached Nova row with a caller-supplied
`firstSeen` leaves the stored `firstSeen` (and id) intact while the other
fields update and the encounter count increments. -/
theorem c10_witness :
    findUser (saveUser dbNovaTrusted
        ⟨"usr_ab12-cd34".toList, some "nova2".toList, some "Nova Two".toList,
         some [], some "User".toList, some "2025.01.01 00:00:00".toList⟩
        "2025.01.02 00:00:00".toList) "usr_ab12-cd34".toList =
      some { rowNovaTrusted with
              username := jsOrNull (some "nova2".toList)
              displayName := jsOrNull (some "Nova Two".toList)
              tags := some []
              trustRank := jsOrUnknown (some "User".toList)
              lastUpdated := "2025.01.02 00:00:00".toList
              timesEncountered := rowNovaTrusted.timesEncountered + 1 } :=
  c10_saveUser_preserves_firstSeen_and_id dbNovaTrusted
    ⟨"usr_ab12-cd34".toList, some "nova2".toList, some "Nova Two".toList,
     some [], some "User".toList, some "2025.01.01 00:00:00".toList⟩
    "2025.01.02 00:00:00".toList rowNovaTrusted (by decide)

/-- A lookup that misses the first list segment continues in the second. -/
theorem find?_append_of_none {α : Type} (p : α → Bool) :
    ∀ (l₁ l₂ : List α), l₁.find? p = none → (l₁ ++ l₂).find? p = l₂.find? p := by
  intro l₁ l₂ h
  induction l₁ with
  | nil => rfl
  | cons x xs ih =>
    rw [List.cons_append]
    cases hx : p x
    · simp only [List.find?_cons, hx] at h ⊢
      exact ih h
    · simp only [List.find?_cons, hx] at h
      exact (Option.some_ne_none x h).elim

/-- Outcome characterisation of the shared join/leave transaction body:
either it fails — and then the returned database is exactly the initial one
with the error propagated — or it succeeds and exactly the
`player_activity` row and the `user_encounters` row are appended, a cached
identity for the participant is present, and a missing identity was created
as the `unknown` placeholder. -/
theorem recordPlayerEventTransaction_spec :
    ∀ (fail : DbOp → Bool) (db : DB) (userId username : Str) (sid : Nat)
      (ts wname aTy eTy now : Str),
      (recordPlayerEventTransaction fail db userId username sid ts wname aTy eTy now).2 ≠ none →
        (recordPlayerEventTransaction fail db userId username sid ts wname aTy eTy now).1 = db := by
  intro fail db userId username sid ts wname aTy eTy now h
  unfold recordPlayerEventTransaction at *
  cases hgu : getUser db userId with
  | some u =>
    rw [hgu] at h
    by_cases h2 : fail .opPlayerActivity
    · simp [recordPlayerActivity, h2]
    · by_cases h3 : fail .opEncounter
      · simp [recordPlayerActivity, recordUserEncounter, h2, h3]
      · simp [recordPlayerActivity, recordUserEncounter, h2, h3] at h
  | none =>
    rw [hgu] at h
    by_cases h1 : fail .opSaveUser
    · simp [h1]
    · by_cases h2 : fail .opPlayerActivity
      · simp [recordPlayerActivity, h1, h2]
      · by_cases h3 : fail .opEncounter
        · simp [recordPlayerActivity, recordUserEncounter, h1, h2, h3]
        · simp [recordPlayerActivity, recordUserEncounter, h1, h2, h3] at h

/-- Outcome characterisation of a successful run of the shared join/leave
transaction body: exactly the `player_activity` row and the
`user_encounters` row are appended, the `world_activity` table is untouched,
a cached identity for the participant exists afterwards, and a previously
missing identity is the freshly created `unknown` placeholder. -/
theorem recordPlayerEventTransaction_ok :
    ∀ (fail : DbOp → Bool) (db : DB) (userId username : Str) (sid : Nat)
      (ts wname aTy eTy now : Str),
      (recordPlayerEventTransaction fail db userId username sid ts wname aTy eTy now).2 = none →
      (recordPlayerEventTransaction fail db userId username sid ts wname aTy eTy now).1.playerActivity =
          db.playerActivity ++ [⟨sid, aTy, ts, username, userId⟩] ∧
      (recordPlayerEventTransaction fail db userId username sid ts wname aTy eTy now).1.userEncounters =
          db.userEncounters ++ [⟨userId, sid, ts, wname, eTy⟩] ∧
      (recordPlayerEventTransaction fail db userId username sid ts wname aTy eTy now).1.worldActivity =
          db.worldActivity ∧
      (findUser (recordPlayerEventTransaction fail db userId username sid ts wname aTy eTy now).1
          userId).isSome = true ∧
      (getUser db userId = none →
        findUser (recordPlayerEventTransaction fail db userId username sid ts wname aTy eTy now).1
            userId =
          some ⟨userId, jsOrNull (some username), jsOrNull (some username), none,
            "unknown".toList, now, now, 1⟩) := by
  intro fail db userId username sid ts wname aTy eTy now h
  unfold recordPlayerEventTransaction at *
  cases hgu : getUser db userId with
  | some u =>
    rw [hgu] at h
    by_cases h2 : fail .opPlayerActivity
    · simp [recordPlayerActivity, h2] at h
    · by_cases h3 : fail .opEncounter
      · simp [recordPlayerActivity, recordUserEncounter, h2, h3] at h
      · refine ⟨?_, ?_, ?_, ?_, ?_⟩ <;>
          simp [recordPlayerActivity, recordUserEncounter, h2, h3]
        cases hfu : findUser db userId with
        | none => unfold getUser at hgu; rw [hfu] at hgu; cases hgu
        | some v =>
          unfold findUser at hfu ⊢
          simp only [List.find?_isSome]
          have hv := List.find?_some hfu
          exact ⟨v, List.mem_of_find?_eq_some hfu, hv⟩
  | none =>
    rw [hgu] at h
    have hfu : findUser db userId = none := by
      cases hfu : findUser db userId with
      | none => rfl
      | some v => unfold getUser at hgu; rw [hfu] at hgu; cases hgu
    have hany : db.cachedUsers.any (fun x => x.id == userId) = false := by
      rw [List.any_eq_false]
      intro x hx
      have := List.find?_eq_none.mp hfu x hx
      simpa using this
    by_cases h1 : fail .opSaveUser
    · simp [h1] at h
    · by_cases h2 : fail .opPlayerActivity
      · simp [recordPlayerActivity, h1, h2] at h
      · by_cases h3 : fail .opEncounter
        · simp [recordPlayerActivity, recordUserEncounter, h1, h2, h3] at h
        · refine ⟨?_, ?_, ?_, ?_, ?_⟩ <;>
            simp [recordPlayerActivity, recordUserEncounter, saveUser, placeholderUser,
              h1, h2, h3, hany]
          · rw [findUser, find?_append_of_none _ _ _ hfu]
            simp [jsOrUnknown]
          · rw [findUser, find?_append_of_none _ _ _ hfu]
            simp [jsOrUnknown, jsOrNull]

/-- C3: the participant join and leave recordings are atomic.  For either
transaction, if any of the three writes fails the error is propagated to
the caller and the database visible afterwards is exactly the
pre-transaction one (none of the three writes is visible); if it succeeds,
all three are visible — the `ParticipantEvent` row and the `Encounter` row
are appended and a `CachedIdentity` for the participant exists. -/
theorem c3_join_leave_transactions_atomic :
    ∀ (fail : DbOp → Bool) (db : DB) (userId username : Str) (sid : Nat)
      (ts wname now : Str),
      (∀ e, (recordPlayerJoinTransaction fail db userId username sid ts wname now).2 = some e →
        (recordPlayerJoinTransaction fail db userId username sid ts wname now).1 = db) ∧
      ((recordPlayerJoinTransaction fail db userId username sid ts wname now).2 = none →
        (recordPlayerJoinTransaction fail db userId username sid ts wname now).1.playerActivity =
            db.playerActivity ++ [⟨sid, "Player Joined".toList, ts, username, userId⟩] ∧
        (recordPlayerJoinTransaction fail db userId username sid ts wname now).1.userEncounters =
            db.userEncounters ++ [⟨userId, sid, ts, wname, "joined".toList⟩] ∧
        (findUser (recordPlayerJoinTransaction fail db userId username sid ts wname now).1
            userId).isSome = true) ∧
      (∀ e, (recordPlayerLeaveTransaction fail db userId username sid ts wname now).2 = some e →
        (recordPlayerLeaveTransaction fail db userId username sid ts wname now).1 = db) ∧
      ((recordPlayerLeaveTransaction fail db userId username sid ts wname now).2 = none →
        (recordPlayerLeaveTransaction fail db userId username sid ts wname now).1.playerActivity =
            db.playerActivity ++ [⟨sid, "Player Left".toList, ts, username, userId⟩] ∧
        (recordPlayerLeaveTransaction fail db userId username sid ts wname now).1.userEncounters =
            db.userEncounters ++ [⟨userId, sid, ts, wname, "left".toList⟩] ∧
        (findUser (recordPlayerLeaveTransaction fail db userId username sid ts wname now).1
            userId).isSome = true) := by
  intro fail db userId username sid ts wname now
  refine ⟨?_, ?_, ?_, ?_⟩
  · intro e he
    exact recordPlayerEventTransaction_spec fail db userId username sid ts wname
      "Player Joined".toList "joined".toList now (by rw [recordPlayerJoinTransaction] at he; rw [he]; simp)
  · intro hok
    have h := recordPlayerEventTransaction_ok fail db userId username sid ts wname
      "Player Joined".toList "joined".toList now (by rw [recordPlayerJoinTransaction] at hok; exact hok)
    exact ⟨h.1, h.2.1, h.2.2.2.1⟩
  · intro e he
    exact recordPlayerEventTransaction_spec fail db userId username sid ts wname
      "Player Left".toList "left".toList now (by rw [recordPlayerLeaveTransaction] at he; rw [he]; simp)
  · intro hok
    have h := recordPlayerEventTransaction_ok fail db userId username sid ts wname
      "Player Left".toList "left".toList now (by rw [recordPlayerLeaveTransaction] at hok; exact hok)
    exact ⟨h.1, h.2.1, h.2.2.2.1⟩

/-- C3 witness: forcing the third write (the encounter insert) to fail in a
join transaction leaves the empty database unchanged. -/
theorem c3_witness :
    (recordPlayerJoinTransaction failEncounterOnly DB.empty "usr_ab12-cd34".toList
        "Nova".toList 0 "T1".toList "Alpha".toList "T".toList).1 = DB.empty :=
  (c3_join_leave_transactions_atomic failEncounterOnly DB.empty "usr_ab12-cd34".toList
      "Nova".toList 0 "T1".toList "Alpha".toList "T".toList).1
    "user_encounters insert failed".toList (by decide)

/-- C7 counterexample: a participant with an existing cached identity of
tier `Known User` joins (full join recording plus enrichment policy, with a
successful response available); `times_encountered` stays at 3 instead of
incrementing to 4 — the increment does not happen on every observed join. -/
theorem c7_counterexample_trusted_join_no_increment :
    timesEncounteredOf dbNovaTrusted "usr_ab12-cd34".toList = 3 ∧
    timesEncounteredOf
        (processJoinSighting noFail true true (some infoNova) dbNovaTrusted notifInit
          "usr_ab12-cd34".toList "Nova".toList 0 "T1".toList "Alpha".toList "T".toList).1
        "usr_ab12-cd34".toList = 3 := by
  refine ⟨by decide, by decide⟩

/-- C7 amended: for a participant with an existing cached identity, an
observed join leaves `encounterCount` unchanged when the cached tier is
neither the placeholder `unknown` nor (case-insensitively) `Visitor`;
otherwise the count is incremented by exactly one if and only if the
enrichment lookup succeeds (the increment is performed by the `saveUser`
write of the enrichment completion, not by the join itself). -/
theorem c7_encounter_count_policy :
    ∀ (response : Option UserInfo) (db : DB) (vn : NotifState)
      (userId username : Str) (sid : Nat) (ts wname now : Str) (u : UserRow),
      getUser db userId = some u →
      timesEncounteredOf
          (processJoinSighting noFail true true response db vn userId username sid ts wname
            now).1 userId =
        (if u.trustRank != "unknown".toList && !(strToLower u.trustRank == "visitor".toList)
         then u.timesEncountered
         else match response with
              | some _ => u.timesEncountered + 1
              | none => u.timesEncountered) := by
  intro response db vn userId username sid ts wname now u hgu
  have hne := getUser_trustRank_nonempty hgu
  cases hfu : findUser db userId with
  | none => unfold getUser at hgu; rw [hfu] at hgu; cases hgu
  | some r =>
    have hu : u = { r with trustRank := if r.trustRank.isEmpty then "unknown".toList
                                        else r.trustRank } := by
      unfold getUser at hgu
      rw [hfu] at hgu
      simpa using hgu.symm
    have hp : (r.id == userId) = true := by
      unfold findUser at hfu
      have hv := List.find?_some hfu
      exact hv
    have hgu2 : ∀ (wa : List WorldRow) (pa : List PlayerRow) (ue : List EncounterRow),
        getUser ⟨wa, pa, db.cachedUsers, ue⟩ userId = some u := fun _ _ _ => hgu
    have hfu2 : ∀ (wa : List WorldRow) (pa : List PlayerRow) (ue : List EncounterRow),
        findUser ⟨wa, pa, db.cachedUsers, ue⟩ userId = some r := fun _ _ _ => hfu
    have hfuraw : List.find? (fun x => x.id == userId) db.cachedUsers = some r := hfu
    have hur : u.timesEncountered = r.timesEncountered := by rw [hu]
    unfold processJoinSighting
    simp only [recordPlayerJoinTransaction, recordPlayerEventTransaction, hgu, noFail,
      recordPlayerActivity, recordUserEncounter, Bool.false_eq_true, if_false]
    unfold fetchAndCacheUser
    simp only [Bool.not_true, Bool.false_eq_true, if_false, hgu2]
    simp only [isVisitorCached, hne, Bool.not_false, Bool.true_and]
    by_cases hskip :
        (u.trustRank != "unknown".toList && !(strToLower u.trustRank == "visitor".toList)) = true
    · rw [if_pos hskip, if_pos hskip]
      unfold timesEncounteredOf
      rw [hfu2]
      simpa using hur.symm
    · rw [if_neg hskip, if_neg hskip]
      cases response with
      | none =>
        dsimp only
        unfold timesEncounteredOf
        rw [hfu2]
        simpa using hur.symm
      | some info =>
        dsimp only
        unfold timesEncounteredOf saveUser
        rw [if_pos (List.any_eq_true.mpr ⟨r, List.mem_of_find?_eq_some hfuraw, hp⟩)]
        unfold findUser
        rw [find?_map_id_preserved db.cachedUsers userId _
              (by intro x
                  by_cases hx : (x.id == userId) = true
                  · rw [if_pos hx]
                  · rw [if_neg hx]) r hfuraw]
        rw [if_pos hp]
        simpa using hur.symm

/-- C7 witness: the amended statement at a concrete placeholder identity
with a successful enrichment response — the count goes from 1 to 2. -/
theorem c7_witness :
    timesEncounteredOf
        (processJoinSighting noFail true true (some infoNova) dbNovaPlaceholder notifInit
          "usr_ab12-cd34".toList "Nova".toList 0 "T1".toList "Alpha".toList "T".toList).1
        "usr_ab12-cd34".toList =
      (if rowNovaPlaceholder.trustRank != "unknown".toList &&
            !(strToLower rowNovaPlaceholder.trustRank == "visitor".toList)
       then rowNovaPlaceholder.timesEncountered
       else match (some infoNova : Option UserInfo) with
            | some _ => rowNovaPlaceholder.timesEncountered + 1
            | none => rowNovaPlaceholder.timesEncountered) :=
  c7_encounter_count_policy (some infoNova) dbNovaPlaceholder notifInit
    "usr_ab12-cd34".toList "Nova".toList 0 "T1".toList "Alpha".toList "T".toList
    rowNovaPlaceholder (by decide)

/-- C9 amended: while a session is active, a confirmed join for a different
room appends a fresh `'Joining World'` row (with a newly minted session id)
and no `'Leaving World'` row whatsoever, and moves the single in-memory
cursor to the new session — so every durably open session stays open and
the durable record does not maintain the at-most-one-open-session
invariant. -/
theorem c9_room_switch_leaves_old_session_open :
    ∀ (now w wid ts : Str) (s : PState) (w0 wid0 : Str) (sid0 : Nat),
      s.ctx.currentWorldName = some w0 →
      s.ctx.currentWorldId = some wid0 →
      s.ctx.currentSessionUUID = some sid0 →
      ¬(w = w0 ∧ wid = wid0) →
      (handleWorldJoin noFail now w wid ts s).db.worldActivity =
          s.db.worldActivity ++ [⟨s.nextUuid, "Joining World".toList, w, ts, wid⟩] ∧
      (handleWorldJoin noFail now w wid ts s).ctx.currentSessionUUID = some s.nextUuid ∧
      (handleWorldJoin noFail now w wid ts s).nextUuid = s.nextUuid + 1 ∧
      (∀ uu, uu ∈ openSessions s.db →
        uu ∈ openSessions (handleWorldJoin noFail now w wid ts s).db) := by
  intro now w wid ts s w0 wid0 sid0 hname hid hsid hdiff
  have hdiffb : (s.ctx.currentWorldName != some w || s.ctx.currentWorldId != some wid) = true := by
    rw [hname, hid]
    rcases not_and_or.mp hdiff with h | h
    · have hb : (some w0 != some w) = true := by
        simp only [bne_iff_ne, ne_eq, Option.some.injEq]
        exact fun hh => h hh.symm
      rw [hb, Bool.true_or]
    · have hb : (some wid0 != some wid) = true := by
        simp only [bne_iff_ne, ne_eq, Option.some.injEq]
        exact fun hh => h hh.symm
      rw [hb, Bool.or_true]
  unfold handleWorldJoin
  rw [hdiffb]
  simp only [Bool.true_or, if_true, recordWorldActivity, noFail, Bool.false_eq_true, if_false]
  refine ⟨trivial, trivial, trivial, ?_⟩
  intro uu hmem
  unfold openSessions at hmem ⊢
  simp only [List.mem_map, List.mem_filter] at hmem ⊢
  obtain ⟨row, ⟨hrmem, hrp⟩, hruu⟩ := hmem
  refine ⟨row, ⟨List.mem_append_left _ hrmem, ?_⟩, hruu⟩
  simp only [Bool.and_eq_true, Bool.not_eq_true'] at hrp ⊢
  refine ⟨hrp.1, ?_⟩
  rw [List.any_append]
  rw [hrp.2]
  simp only [List.any_cons, List.any_nil, Bool.false_or, Bool.or_false]
  have hJL : ("Joining World".toList == "Leaving World".toList) = false := by decide
  rw [hJL, Bool.false_and]

/-- C9 witness: the amended statement at a concrete in-session state. -/
theorem c9_witness :
    (handleWorldJoin noFail "T".toList "Beta".toList "wrld_def456".toList "T2".toList
        ⟨⟨some "Alpha".toList, some "wrld_abc123".toList, some 0, []⟩,
         ⟨[⟨0, "Joining World".toList, "Alpha".toList, "T0".toList, "wrld_abc123".toList⟩],
          [], [], []⟩, 1, []⟩).db.worldActivity =
      [⟨0, "Joining World".toList, "Alpha".toList, "T0".toList, "wrld_abc123".toList⟩] ++
        [⟨1, "Joining World".toList, "Beta".toList, "T2".toList, "wrld_def456".toList⟩] :=
  (c9_room_switch_leaves_old_session_open "T".toList "Beta".toList "wrld_def456".toList
      "T2".toList
      ⟨⟨some "Alpha".toList, some "wrld_abc123".toList, some 0, []⟩,
       ⟨[⟨0, "Joining World".toList, "Alpha".toList, "T0".toList, "wrld_abc123".toList⟩],
        [], [], []⟩, 1, []⟩
      "Alpha".toList "wrld_abc123".toList 0 rfl rfl rfl (by decide)).1

/-- In every tail schedule, executions are disjoint in time (single-flight)
and the first execution does not start before `prevComp`. -/
theorem scheduleAux_flight (delay : Nat) :
    ∀ (rs : List Req) (prevComp : Nat),
      List.Chain' (fun a b => a.2.2 ≤ b.2.1) (scheduleAux delay prevComp rs) ∧
      (∀ x ∈ (scheduleAux delay prevComp rs).head?, prevComp ≤ x.2.1) := by
  intro rs
  induction rs with
  | nil => intro prevComp; exact ⟨List.chain'_nil, by simp [scheduleAux]⟩
  | cons r rs ih =>
    intro prevComp
    rw [scheduleAux]
    constructor
    · refine List.chain'_cons'.mpr ⟨?_, (ih _).1⟩
      intro b hb
      exact (ih _).2 b hb
    · intro x hx
      simp only [List.head?_cons, Option.mem_def, Option.some.injEq] at hx
      subst hx
      show prevComp ≤ if r.arrival ≤ prevComp then prevComp + delay else r.arrival
      by_cases hc : r.arrival ≤ prevComp
      · rw [if_pos hc]; exact Nat.le_add_right _ _
      · rw [if_neg hc]; exact Nat.le_of_lt (Nat.lt_of_not_le hc)

/-- In every tail schedule, a request that was already queued when its
predecessor completed completes at least `delay` after it. -/
theorem scheduleAux_spacing (delay : Nat) :
    ∀ (rs : List Req) (prevComp : Nat),
      List.Chain' (fun a b => b.1.arrival ≤ a.2.2 → a.2.2 + delay ≤ b.2.2)
        (scheduleAux delay prevComp rs) ∧
      (∀ x ∈ (scheduleAux delay prevComp rs).head?,
        x.1.arrival ≤ prevComp → prevComp + delay ≤ x.2.2) := by
  intro rs
  induction rs with
  | nil => intro prevComp; exact ⟨List.chain'_nil, by simp [scheduleAux]⟩
  | cons r rs ih =>
    intro prevComp
    rw [scheduleAux]
    constructor
    · refine List.chain'_cons'.mpr ⟨?_, (ih _).1⟩
      intro b hb
      exact (ih _).2 b hb
    · intro x hx
      simp only [List.head?_cons, Option.mem_def, Option.some.injEq] at hx
      subst hx
      intro harr
      show prevComp + delay ≤ (if r.arrival ≤ prevComp then prevComp + delay else r.arrival) + r.duration
      rw [if_pos harr]
      exact Nat.le_add_right _ _

/-- Pointwise modus ponens for `Chain'`. -/
theorem chain'_mp {α : Type} {P Q : α → α → Prop} :
    ∀ (l : List α), List.Chain' (fun a b => P a b → Q a b) l →
      List.Chain' P l → List.Chain' Q l := by
  intro l
  induction l with
  | nil => intro _ _; exact List.chain'_nil
  | cons a t ih =>
    intro h1 h2
    rw [List.chain'_cons'] at h1 h2 ⊢
    exact ⟨fun b hb => h1.1 b hb (h2.1 b hb), ih h1.2 h2.2⟩

/-- A chain of completions growing by at least `delay` per step spans at
least `(length - 1) * delay` from first to last. -/
theorem chain_growth {α : Type} (f : α → Nat) (delay : Nat) :
    ∀ (l : List α), List.Chain' (fun a b => f a + delay ≤ f b) l →
      ∀ x y, l.head? = some x → l.getLast? = some y →
        f x + (l.length - 1) * delay ≤ f y := by
  intro l
  induction l with
  | nil => intro _ x y hx; cases hx
  | cons a t ih =>
    intro hch x y hx hy
    simp only [List.head?_cons, Option.some.injEq] at hx
    subst hx
    cases t with
    | nil =>
      simp only [List.getLast?_singleton, Option.some.injEq] at hy
      subst hy
      simp
    | cons b t' =>
      rw [List.chain'_cons] at hch
      have hby : (b :: t').getLast? = some y := by
        rw [List.getLast?_cons_cons] at hy
        cases t' with
        | nil => simpa using hy
        | cons c t'' => simpa [List.getLast?_cons_cons] using hy
      have hib := ih hch.2 b y rfl hby
      have hlen : (a :: b :: t').length - 1 = ((b :: t').length - 1) + 1 := by
        simp [List.length_cons]
      rw [hlen]
      calc f a + (((b :: t').length - 1) + 1) * delay
          = (f a + delay) + ((b :: t').length - 1) * delay := by ring
        _ ≤ f b + ((b :: t').length - 1) * delay := Nat.add_le_add_right hch.1 _
        _ ≤ f y := hib

/-- C4 counterexample: two enqueued requests (the second arriving just
after the first completes and the queue drains) are served only 2 ms apart
— far less than `(N-1) × RATE_LIMIT_DELAY = 1000` — so the claimed minimum
spacing between any two consecutive executions does not hold for every
sequence of enqueued requests. -/
theorem c4_counterexample_drained_queue_no_delay :
    processQueueSchedule RATE_LIMIT_DELAY [⟨0, 1⟩, ⟨2, 1⟩] =
      [(⟨0, 1⟩, 0, 1), (⟨2, 1⟩, 2, 3)] ∧
    3 - 1 < (2 - 1) * RATE_LIMIT_DELAY := by
  refine ⟨by decide, by decide⟩

/-- C4 amended: requests execute strictly one at a time (the next starts no
earlier than the previous completion, regardless of queue depth), and every
request that is already queued when its predecessor completes finishes at
least `delay` after it; hence when the queue never drains (each request has
arrived by its predecessor's completion) the time between the 1st and Nth
completion is at least `(N-1) × delay`.  A request enqueued after the queue
has drained may start sooner than `delay` after the previous completion. -/
theorem c4_rate_limit_schedule :
    ∀ (delay : Nat) (reqs : List Req),
      List.Chain' (fun a b => a.2.2 ≤ b.2.1) (processQueueSchedule delay reqs) ∧
      List.Chain' (fun a b => b.1.arrival ≤ a.2.2 → a.2.2 + delay ≤ b.2.2)
        (processQueueSchedule delay reqs) ∧
      (List.Chain' (fun a b => b.1.arrival ≤ a.2.2) (processQueueSchedule delay reqs) →
        ∀ x y, (processQueueSchedule delay reqs).head? = some x →
          (processQueueSchedule delay reqs).getLast? = some y →
          x.2.2 + ((processQueueSchedule delay reqs).length - 1) * delay ≤ y.2.2) := by
  intro delay reqs
  have hflight : List.Chain' (fun a b => a.2.2 ≤ b.2.1) (processQueueSchedule delay reqs) := by
    cases reqs with
    | nil => exact List.chain'_nil
    | cons r rs =>
      rw [processQueueSchedule]
      refine List.chain'_cons'.mpr ⟨?_, (scheduleAux_flight delay rs _).1⟩
      intro b hb
      exact (scheduleAux_flight delay rs _).2 b hb
  have hspace : List.Chain' (fun a b => b.1.arrival ≤ a.2.2 → a.2.2 + delay ≤ b.2.2)
      (processQueueSchedule delay reqs) := by
    cases reqs with
    | nil => exact List.chain'_nil
    | cons r rs =>
      rw [processQueueSchedule]
      refine List.chain'_cons'.mpr ⟨?_, (scheduleAux_spacing delay rs _).1⟩
      intro b hb
      exact (scheduleAux_spacing delay rs _).2 b hb
  refine ⟨hflight, hspace, ?_⟩
  intro hqueued x y hx hy
  exact chain_growth (fun a => a.2.2) delay _ (chain'_mp _ hspace hqueued) x y hx hy

/-- C4 witness: for two requests that stay queued (the second arrives
before the first completes), the completions span at least one full
`RATE_LIMIT_DELAY`. -/
theorem c4_witness :
    ((⟨0, 5⟩ : Req), 0, 5).2.2 +
        ((processQueueSchedule RATE_LIMIT_DELAY [⟨0, 5⟩, ⟨3, 2⟩]).length - 1) *
          RATE_LIMIT_DELAY ≤
      ((⟨3, 2⟩ : Req), 1005, 1007).2.2 :=
  (c4_rate_limit_schedule RATE_LIMIT_DELAY [⟨0, 5⟩, ⟨3, 2⟩]).2.2
    (by
      have hsch : processQueueSchedule RATE_LIMIT_DELAY [⟨0, 5⟩, ⟨3, 2⟩] =
          [(⟨0, 5⟩, 0, 5), (⟨3, 2⟩, 1005, 1007)] := by decide
      rw [hsch]
      exact List.chain'_pair.mpr (by decide))
    (⟨0, 5⟩, 0, 5) (⟨3, 2⟩, 1005, 1007) (by decide) (by decide)

end VRCIM
